import Mathlib

/-!
The FT6206 touch-panel polling driver (`embed/trezorhal/touch.c`).

A shallow embedding of `touch_read` and `touch_click` together with the
properties of the driver that its specification states.

* The two `static` buffers of `touch_read` become the explicit `TouchState`.
* The I2C bus is the environment: what it answers during one call of
  `touch_read` is an `I2CReply`, and the transactions the call issues are
  recorded in the order they happen.
* `touch.h` is not among the sources.  `touch_read` and `touch_click` take
  what they use of it (`TOUCH_START`, `TOUCH_MOVE`, `TOUCH_END`,
  `touch_pack_xy`) as a `TouchHeader`; the header described by the
  specification is `touch_h`.
-/

namespace Touch

/-! ## Constants of `touch.c` -/

/-- The controller address, `(0x38U << 1)`. -/
def TOUCH_ADDRESS : Nat := 0x38 <<< 1

/-- The length of a status packet, `7U`. -/
abbrev TOUCH_PACKET_SIZE : Nat := 7

def EVENT_PRESS_DOWN : Nat := 0x00

def EVENT_CONTACT : Nat := 0x80

def EVENT_LIFT_UP : Nat := 0x40

def EVENT_NO_EVENT : Nat := 0xC0

def GESTURE_NO_GESTURE : Nat := 0x00

/-! ## Data model -/

/-- A `uint8_t [TOUCH_PACKET_SIZE]` buffer. -/
abbrev Packet : Type := Fin TOUCH_PACKET_SIZE → Fin 256

/-- The macro `X_POS_MSB`, `(touch_data[3] & 0x0FU)`. -/
def X_POS_MSB (touch_data : Packet) : Nat := (touch_data 3).val &&& 0x0F

/-- The macro `X_POS_LSB`, `(touch_data[4])`. -/
def X_POS_LSB (touch_data : Packet) : Nat := (touch_data 4).val

/-- The macro `Y_POS_MSB`, `(touch_data[5] & 0x0FU)`. -/
def Y_POS_MSB (touch_data : Packet) : Nat := (touch_data 5).val &&& 0x0F

/-- The macro `Y_POS_LSB`, `(touch_data[6])`. -/
def Y_POS_LSB (touch_data : Packet) : Nat := (touch_data 6).val

/-- The status a HAL I2C call returns (`HAL_StatusTypeDef` of the STM32 HAL). -/
inductive HAL_StatusTypeDef where
  | HAL_OK
  | HAL_ERROR
  | HAL_BUSY
  | HAL_TIMEOUT
deriving DecidableEq, Repr

open HAL_StatusTypeDef

/-- A transaction issued on the bus: the arguments of the HAL call. -/
inductive I2CTransaction where
  | Master_Transmit (address : Nat) (data : List Nat) (timeout : Nat)
  | Master_Receive (address : Nat) (size : Nat) (timeout : Nat)
deriving DecidableEq, Repr

/-- What the bus does during one call of `touch_read`: the status of
`HAL_I2C_Master_Transmit`, the status of `HAL_I2C_Master_Receive`, and the
content of the receive buffer once `HAL_I2C_Master_Receive` has returned
(the packet on success, whatever the call left there on failure).  The last
two are only consulted when the call is reached. -/
structure I2CReply where
  transmit : HAL_StatusTypeDef
  receive : HAL_StatusTypeDef
  rx : Packet

/-- The two `static` buffers of `touch_read`. -/
structure TouchState where
  touch_data : Packet
  previous_touch_data : Packet

/-- Static storage is zero-initialised. -/
def TouchState.init : TouchState := ⟨fun _ => 0, fun _ => 0⟩

/-- What `touch_read` uses of `touch.h`: the three event tags and the
coordinate packing function. -/
structure TouchHeader where
  TOUCH_START : Nat
  TOUCH_MOVE : Nat
  TOUCH_END : Nat
  touch_pack_xy : Nat → Nat → Nat

/-- The outcome of one call of `touch_read`: the returned word, the static
buffers afterwards and the bus transactions issued, in order. -/
structure ReadResult where
  ret : Nat
  state : TouchState
  bus : List I2CTransaction

/-! ## `touch_read` -/

/-- The function `touch_read` of `touch.c`. -/
def touch_read (h : TouchHeader) (s : TouchState) (reply : I2CReply) : ReadResult :=
  let outgoing : List Nat := [0x00]
  let tx := I2CTransaction.Master_Transmit TOUCH_ADDRESS outgoing 1
  if HAL_OK ≠ reply.transmit then
    ⟨0, s, [tx]⟩
  else
    let rx := I2CTransaction.Master_Receive TOUCH_ADDRESS TOUCH_PACKET_SIZE 1
    let touch_data : Packet := reply.rx
    if HAL_OK ≠ reply.receive then
      ⟨0, ⟨touch_data, s.previous_touch_data⟩, [tx, rx]⟩
    else if s.previous_touch_data = touch_data then
      ⟨0, ⟨touch_data, s.previous_touch_data⟩, [tx, rx]⟩
    else
      let previous_touch_data : Packet := touch_data
      let number_of_touch_points : Nat := (touch_data 2).val &&& 0x0F
      let event_flag : Nat := (touch_data 3).val &&& 0xC0
      if (touch_data 1).val = GESTURE_NO_GESTURE then
        let xy : Nat := h.touch_pack_xy
          ((X_POS_MSB touch_data <<< 8) ||| X_POS_LSB touch_data)
          ((Y_POS_MSB touch_data <<< 8) ||| Y_POS_LSB touch_data)
        if number_of_touch_points = 1 ∧ event_flag = EVENT_PRESS_DOWN then
          ⟨h.TOUCH_START ||| xy, ⟨touch_data, previous_touch_data⟩, [tx, rx]⟩
        else if number_of_touch_points = 1 ∧ event_flag = EVENT_CONTACT then
          ⟨h.TOUCH_MOVE ||| xy, ⟨touch_data, previous_touch_data⟩, [tx, rx]⟩
        else if number_of_touch_points = 0 ∧ event_flag = EVENT_LIFT_UP then
          ⟨h.TOUCH_END ||| xy, ⟨touch_data, previous_touch_data⟩, [tx, rx]⟩
        else
          ⟨0, ⟨touch_data, previous_touch_data⟩, [tx, rx]⟩
      else
        ⟨0, ⟨touch_data, previous_touch_data⟩, [tx, rx]⟩

/-- A call of `touch_read` in which both bus transactions succeed and the
receive delivers the packet `p`. -/
def I2CReply.ok (p : Packet) : I2CReply := ⟨HAL_OK, HAL_OK, p⟩

/-! ## The header -/

/-- Modelled from the spec: `touch.h` is not among the sources.  The event
kind is a high-bit tag above the 24 bits of X/Y payload; Start is the first
of the three tags. -/
def TOUCH_START : Nat := 1 <<< 24

/-- Modelled from the spec: `touch.h` is not among the sources.  The tag of
a Move event, a bit of its own above the 24 payload bits. -/
def TOUCH_MOVE : Nat := 1 <<< 25

/-- Modelled from the spec: `touch.h` is not among the sources.  The tag of
an End event, a bit of its own above the 24 payload bits. -/
def TOUCH_END : Nat := 1 <<< 26

/-- Modelled from the spec: `touch.h` is not among the sources.  The two
12-bit values are combined into one word, high bits X and low bits Y, 24 bits
of payload in all. -/
def touch_pack_xy (x y : Nat) : Nat := ((x &&& 0xFFF) <<< 12) ||| (y &&& 0xFFF)

/-- Modelled from the spec: `touch.h` is not among the sources.  The caller
extracts X with a fixed shift and mask. -/
def touch_get_x (evt : Nat) : Nat := (evt >>> 12) &&& 0xFFF

/-- Modelled from the spec: `touch.h` is not among the sources.  The caller
extracts Y with a fixed mask. -/
def touch_get_y (evt : Nat) : Nat := (evt >>> 0) &&& 0xFFF

/-- Modelled from the spec: `touch.h` is not among the sources.  The header
the specification describes, made of the definitions above. -/
def touch_h : TouchHeader := ⟨TOUCH_START, TOUCH_MOVE, TOUCH_END, touch_pack_xy⟩

/-! ## Consecutive polls -/

/-- Consecutive calls of `touch_read`, one per bus reply, each starting from
the static buffers the call before left: the outcomes in call order. -/
def touch_read_seq (h : TouchHeader) : TouchState → List I2CReply → List ReadResult
  | _, [] => []
  | s, reply :: rest =>
    touch_read h s reply :: touch_read_seq h (touch_read h s reply).state rest

/-! ## `touch_click` -/

/-- Where control is inside `touch_click`: in one of its four `while` loops,
in source order, or past the `return`. -/
inductive ClickLoop where
  | flush_before
  | wait_start
  | wait_end
  | flush_after
  | returned
deriving DecidableEq, Repr

/-- The state of a running `touch_click`: the loop it is in, the local `r`
and the number of `touch_read` calls it has made. -/
structure ClickState where
  loop : ClickLoop
  r : Nat
  reads : Nat
deriving DecidableEq, Repr

/-- On entry `uint32_t r = 0` and control reaches the first loop. -/
def ClickState.entry : ClickState := ⟨ClickLoop.flush_before, 0, 0⟩

/-- One iteration of the loop `touch_click` is in: the loop condition calls
`touch_read`, which returns `v`, and the loop is repeated or left.  After the
`return` nothing is called. -/
def touch_click_step (h : TouchHeader) (c : ClickState) (v : Nat) : ClickState :=
  match c.loop with
  | ClickLoop.flush_before =>
    if v ≠ 0 then ⟨ClickLoop.flush_before, c.r, c.reads + 1⟩
    else ⟨ClickLoop.wait_start, c.r, c.reads + 1⟩
  | ClickLoop.wait_start =>
    if v &&& h.TOUCH_START = 0 then ⟨ClickLoop.wait_start, c.r, c.reads + 1⟩
    else ⟨ClickLoop.wait_end, c.r, c.reads + 1⟩
  | ClickLoop.wait_end =>
    if v &&& h.TOUCH_END = 0 then ⟨ClickLoop.wait_end, v, c.reads + 1⟩
    else ⟨ClickLoop.flush_after, v, c.reads + 1⟩
  | ClickLoop.flush_after =>
    if v ≠ 0 then ⟨ClickLoop.flush_after, c.r, c.reads + 1⟩
    else ⟨ClickLoop.returned, c.r, c.reads + 1⟩
  | ClickLoop.returned => c

/-- The function `touch_click` run from state `c` against the words that the
successive `touch_read` calls return. -/
def touch_click_run (h : TouchHeader) (c : ClickState) (vs : List Nat) : ClickState :=
  vs.foldl (touch_click_step h) c

/-- The function `touch_click` of `touch.c` against the words the successive
`touch_read` calls return: the returned `r` together with the number of
`touch_read` calls made, or `none` while it has not returned. -/
def touch_click (h : TouchHeader) (vs : List Nat) : Option (Nat × Nat) :=
  let c := touch_click_run h ClickState.entry vs
  if c.loop = ClickLoop.returned then some (c.r, c.reads) else none

/-! ## Polls on the bus -/

/-- The static buffers after consecutive calls of `touch_read`, one per bus
reply. -/
def touch_read_state (h : TouchHeader) (s : TouchState) (replies : List I2CReply) :
    TouchState :=
  replies.foldl (fun st reply => (touch_read h st reply).state) s

/-- The packet passes the tests of one of the three returning branches of
`touch_read`: no gesture, and the (points, phase) pair of a row of the
decision table. -/
def table_row (p : Packet) : Prop :=
  (p 1).val = GESTURE_NO_GESTURE
    ∧ (((p 2).val &&& 0x0F = 1 ∧ (p 3).val &&& 0xC0 = EVENT_PRESS_DOWN)
      ∨ ((p 2).val &&& 0x0F = 1 ∧ (p 3).val &&& 0xC0 = EVENT_CONTACT)
      ∨ ((p 2).val &&& 0x0F = 0 ∧ (p 3).val &&& 0xC0 = EVENT_LIFT_UP))

instance table_row_decidable (p : Packet) : Decidable (table_row p) := by
  unfold table_row
  infer_instance

/-- One loop iteration of `touch_click` on the bus: unless it has returned,
it calls `touch_read`, which talks to the bus, and acts on the word
returned. -/
def touch_click_poll (h : TouchHeader) (sc : TouchState × ClickState) (reply : I2CReply) :
    TouchState × ClickState :=
  if sc.2.loop = ClickLoop.returned then sc
  else ((touch_read h sc.1 reply).state,
    touch_click_step h sc.2 (touch_read h sc.1 reply).ret)

/-- The function `touch_click` entered with the static buffers `s`, after the
polls that the given bus replies answer. -/
def touch_click_on_bus (h : TouchHeader) (s : TouchState) (replies : List I2CReply) :
    TouchState × ClickState :=
  replies.foldl (touch_click_poll h) (s, ClickState.entry)

/-! ## Basic facts about one call -/

theorem touch_read_transmit_failed (h : TouchHeader) (s : TouchState) (reply : I2CReply)
    (hw : reply.transmit ≠ HAL_OK) :
    touch_read h s reply
      = ⟨0, s, [I2CTransaction.Master_Transmit TOUCH_ADDRESS [0x00] 1]⟩ := by
  have hw2 : HAL_OK ≠ reply.transmit := fun e => hw e.symm
  simp [touch_read, hw2]

theorem touch_read_receive_failed (h : TouchHeader) (s : TouchState) (reply : I2CReply)
    (hw : reply.transmit = HAL_OK) (hr : reply.receive ≠ HAL_OK) :
    touch_read h s reply
      = ⟨0, ⟨reply.rx, s.previous_touch_data⟩,
          [I2CTransaction.Master_Transmit TOUCH_ADDRESS [0x00] 1,
           I2CTransaction.Master_Receive TOUCH_ADDRESS TOUCH_PACKET_SIZE 1]⟩ := by
  have hr2 : HAL_OK ≠ reply.receive := fun e => hr e.symm
  simp [touch_read, hw, hr2]

theorem touch_read_duplicate (h : TouchHeader) (s : TouchState) (reply : I2CReply)
    (hw : reply.transmit = HAL_OK) (hr : reply.receive = HAL_OK)
    (hd : s.previous_touch_data = reply.rx) :
    touch_read h s reply
      = ⟨0, ⟨reply.rx, s.previous_touch_data⟩,
          [I2CTransaction.Master_Transmit TOUCH_ADDRESS [0x00] 1,
           I2CTransaction.Master_Receive TOUCH_ADDRESS TOUCH_PACKET_SIZE 1]⟩ := by
  simp [touch_read, hw, hr, hd]

/-- A call that does not complete both transactions leaves the stored
previous packet alone and returns 0. -/
theorem touch_read_failed (h : TouchHeader) (s : TouchState) (reply : I2CReply)
    (hf : ¬ (reply.transmit = HAL_OK ∧ reply.receive = HAL_OK)) :
    (touch_read h s reply).ret = 0
      ∧ (touch_read h s reply).state.previous_touch_data = s.previous_touch_data := by
  by_cases hw : reply.transmit = HAL_OK
  · have hr : reply.receive ≠ HAL_OK := fun e => hf ⟨hw, e⟩
    rw [touch_read_receive_failed h s reply hw hr]
    exact ⟨rfl, rfl⟩
  · rw [touch_read_transmit_failed h s reply hw]
    exact ⟨rfl, rfl⟩

/-- After a call in which both transactions succeed the stored previous
packet is the packet just read. -/
theorem touch_read_ok_previous (h : TouchHeader) (s : TouchState) (reply : I2CReply)
    (hw : reply.transmit = HAL_OK) (hr : reply.receive = HAL_OK) :
    (touch_read h s reply).state.previous_touch_data = reply.rx := by
  by_cases hd : s.previous_touch_data = reply.rx
  · rw [touch_read_duplicate h s reply hw hr hd]
    exact hd
  · simp only [touch_read, hw, hr, hd, ne_eq, not_true_eq_false, if_false]
    split_ifs <;> rfl

/-- If the stored previous packet is `p` and every completed read delivers
`p`, every call returns 0. -/
theorem touch_read_seq_all_zero (h : TouchHeader) (p : Packet) (replies : List I2CReply) :
    ∀ s : TouchState, s.previous_touch_data = p →
      (∀ b ∈ replies, b.transmit = HAL_OK → b.receive = HAL_OK → b.rx = p) →
      ∀ r ∈ touch_read_seq h s replies, r.ret = 0 := by
  induction replies with
  | nil => intro s _ _ r hr; simp [touch_read_seq] at hr
  | cons b bs ih =>
    intro s hs hall r hr
    simp only [touch_read_seq, List.mem_cons] at hr
    have hbs : ∀ c ∈ bs, c.transmit = HAL_OK → c.receive = HAL_OK → c.rx = p :=
      fun c hc => hall c (List.mem_cons_of_mem _ hc)
    by_cases hok : b.transmit = HAL_OK ∧ b.receive = HAL_OK
    · have hrx : b.rx = p := hall b (List.mem_cons_self _ _) hok.1 hok.2
      have hdup := touch_read_duplicate h s b hok.1 hok.2 (hs.trans hrx.symm)
      rcases hr with hr | hr
      · rw [hr, hdup]
      · refine ih (touch_read h s b).state ?_ hbs r hr
        rw [touch_read_ok_previous h s b hok.1 hok.2, hrx]
    · have hf := touch_read_failed h s b hok
      rcases hr with hr | hr
      · rw [hr]; exact hf.1
      · exact ih (touch_read h s b).state (hf.2.trans hs) hbs r hr

/-! ## The decoding table -/

/-- C1: a successfully read packet that differs from the stored previous
packet and carries no gesture decodes by the table: one point with phase
press-down gives `TOUCH_START | touch_pack_xy(x, y)`, one point with phase
contact gives `TOUCH_MOVE | touch_pack_xy(x, y)`, no point with phase lift-up
gives `TOUCH_END | touch_pack_xy(x, y)`, where
`x = ((p[3] & 0x0F) << 8) | p[4]` and `y = ((p[5] & 0x0F) << 8) | p[6]`. -/
theorem touch_read_decision_table (h : TouchHeader) (s : TouchState) (reply : I2CReply)
    (hw : reply.transmit = HAL_OK) (hr : reply.receive = HAL_OK)
    (hne : reply.rx ≠ s.previous_touch_data) (hg : (reply.rx 1).val = 0) :
    (((reply.rx 2).val &&& 0x0F = 1 ∧ (reply.rx 3).val &&& 0xC0 = 0x00 →
        (touch_read h s reply).ret = h.TOUCH_START ||| h.touch_pack_xy
          ((((reply.rx 3).val &&& 0x0F) <<< 8) ||| (reply.rx 4).val)
          ((((reply.rx 5).val &&& 0x0F) <<< 8) ||| (reply.rx 6).val))
      ∧ ((reply.rx 2).val &&& 0x0F = 1 ∧ (reply.rx 3).val &&& 0xC0 = 0x80 →
        (touch_read h s reply).ret = h.TOUCH_MOVE ||| h.touch_pack_xy
          ((((reply.rx 3).val &&& 0x0F) <<< 8) ||| (reply.rx 4).val)
          ((((reply.rx 5).val &&& 0x0F) <<< 8) ||| (reply.rx 6).val))
      ∧ ((reply.rx 2).val &&& 0x0F = 0 ∧ (reply.rx 3).val &&& 0xC0 = 0x40 →
        (touch_read h s reply).ret = h.TOUCH_END ||| h.touch_pack_xy
          ((((reply.rx 3).val &&& 0x0F) <<< 8) ||| (reply.rx 4).val)
          ((((reply.rx 5).val &&& 0x0F) <<< 8) ||| (reply.rx 6).val))) := by
  have hne2 : ¬ s.previous_touch_data = reply.rx := fun e => hne e.symm
  refine ⟨?_, ?_, ?_⟩
  · rintro ⟨hp, he⟩
    simp [touch_read, hw, hr, hne2, hg, hp, he, GESTURE_NO_GESTURE, EVENT_PRESS_DOWN,
      X_POS_MSB, X_POS_LSB, Y_POS_MSB, Y_POS_LSB]
  · rintro ⟨hp, he⟩
    simp [touch_read, hw, hr, hne2, hg, hp, he, GESTURE_NO_GESTURE, EVENT_PRESS_DOWN,
      EVENT_CONTACT, X_POS_MSB, X_POS_LSB, Y_POS_MSB, Y_POS_LSB]
  · rintro ⟨hp, he⟩
    simp [touch_read, hw, hr, hne2, hg, hp, he, GESTURE_NO_GESTURE, EVENT_PRESS_DOWN,
      EVENT_CONTACT, EVENT_LIFT_UP, X_POS_MSB, X_POS_LSB, Y_POS_MSB, Y_POS_LSB]

/-- Witness for C1 at the zero-initialised driver: a press-down, a contact
and a lift-up packet with the coordinate (10, 20). -/
theorem touch_read_decision_table_witness :
    (touch_read touch_h TouchState.init (I2CReply.ok ![0, 0, 1, 0x00, 10, 0, 20])).ret
        = TOUCH_START ||| touch_pack_xy 10 20
      ∧ (touch_read touch_h TouchState.init (I2CReply.ok ![0, 0, 1, 0x80, 10, 0, 20])).ret
        = TOUCH_MOVE ||| touch_pack_xy 10 20
      ∧ (touch_read touch_h TouchState.init (I2CReply.ok ![0, 0, 0, 0x40, 10, 0, 20])).ret
        = TOUCH_END ||| touch_pack_xy 10 20 :=
  ⟨(touch_read_decision_table touch_h TouchState.init (I2CReply.ok ![0, 0, 1, 0x00, 10, 0, 20])
      rfl rfl (by decide) (by decide)).1 (by decide),
   (touch_read_decision_table touch_h TouchState.init (I2CReply.ok ![0, 0, 1, 0x80, 10, 0, 20])
      rfl rfl (by decide) (by decide)).2.1 (by decide),
   (touch_read_decision_table touch_h TouchState.init (I2CReply.ok ![0, 0, 0, 0x40, 10, 0, 20])
      rfl rfl (by decide) (by decide)).2.2 (by decide)⟩

/-- C2: a successfully read packet whose gesture code `p[1]` is not 0
(`GESTURE_NO_GESTURE`) makes `touch_read` return 0, whatever the driver state
and the other bytes of the packet are. -/
theorem touch_read_gesture_zero (h : TouchHeader) (s : TouchState) (reply : I2CReply)
    (hw : reply.transmit = HAL_OK) (hr : reply.receive = HAL_OK)
    (hg : (reply.rx 1).val ≠ 0) :
    (touch_read h s reply).ret = 0 := by
  by_cases hd : s.previous_touch_data = reply.rx
  · rw [touch_read_duplicate h s reply hw hr hd]
  · simp [touch_read, hw, hr, hd, hg, GESTURE_NO_GESTURE]

/-- Witness for C2: gesture code 0x10 on a packet that would otherwise be a
press-down at (10, 20). -/
theorem touch_read_gesture_zero_witness :
    (touch_read touch_h TouchState.init (I2CReply.ok ![0, 0x10, 1, 0x00, 10, 0, 20])).ret = 0 :=
  touch_read_gesture_zero touch_h TouchState.init (I2CReply.ok ![0, 0x10, 1, 0x00, 10, 0, 20])
    rfl rfl (by decide)

/-- C3: a successfully read packet without gesture whose (points, phase)
pair is none of (1, 0x00), (1, 0x80), (0, 0x40) makes `touch_read` return 0;
so does every packet with points 0xF, whatever its phase, and every packet
with phase 0xC0. -/
theorem touch_read_no_row_zero (h : TouchHeader) (s : TouchState) (reply : I2CReply)
    (hw : reply.transmit = HAL_OK) (hr : reply.receive = HAL_OK) :
    ((reply.rx 1).val = 0 →
        ¬ ((reply.rx 2).val &&& 0x0F = 1 ∧ (reply.rx 3).val &&& 0xC0 = 0x00) →
        ¬ ((reply.rx 2).val &&& 0x0F = 1 ∧ (reply.rx 3).val &&& 0xC0 = 0x80) →
        ¬ ((reply.rx 2).val &&& 0x0F = 0 ∧ (reply.rx 3).val &&& 0xC0 = 0x40) →
        (touch_read h s reply).ret = 0)
      ∧ ((reply.rx 2).val &&& 0x0F = 0xF → (touch_read h s reply).ret = 0)
      ∧ ((reply.rx 3).val &&& 0xC0 = 0xC0 → (touch_read h s reply).ret = 0) := by
  by_cases hd : s.previous_touch_data = reply.rx
  · rw [touch_read_duplicate h s reply hw hr hd]
    exact ⟨fun _ _ _ _ => rfl, fun _ => rfl, fun _ => rfl⟩
  · refine ⟨?_, ?_, ?_⟩
    · intro hg h1 h2 h3
      simp only [touch_read, hw, hr, hd, hg, GESTURE_NO_GESTURE, EVENT_PRESS_DOWN,
        EVENT_CONTACT, EVENT_LIFT_UP, ne_eq, not_true_eq_false, if_false, if_true]
      rw [if_neg h1, if_neg h2, if_neg h3]
    · intro hp
      simp only [touch_read, hw, hr, hd, hp, ne_eq, not_true_eq_false, if_false]
      split_ifs <;> simp_all
    · intro he
      simp only [touch_read, hw, hr, hd, he, EVENT_PRESS_DOWN, EVENT_CONTACT, EVENT_LIFT_UP,
        ne_eq, not_true_eq_false, if_false]
      split_ifs <;> simp_all

/-- Witness for C3: points 2 with phase contact, points 0xF with phase
lift-up, and points 1 with phase no-event. -/
theorem touch_read_no_row_zero_witness :
    (touch_read touch_h TouchState.init (I2CReply.ok ![0, 0, 2, 0x80, 10, 0, 20])).ret = 0
      ∧ (touch_read touch_h TouchState.init (I2CReply.ok ![0, 0, 0x0F, 0x40, 10, 0, 20])).ret = 0
      ∧ (touch_read touch_h TouchState.init (I2CReply.ok ![0, 0, 1, 0xC0, 10, 0, 20])).ret = 0 :=
  ⟨(touch_read_no_row_zero touch_h TouchState.init (I2CReply.ok ![0, 0, 2, 0x80, 10, 0, 20])
      rfl rfl).1 (by decide) (by decide) (by decide) (by decide),
   (touch_read_no_row_zero touch_h TouchState.init (I2CReply.ok ![0, 0, 0x0F, 0x40, 10, 0, 20])
      rfl rfl).2.1 (by decide),
   (touch_read_no_row_zero touch_h TouchState.init (I2CReply.ok ![0, 0, 1, 0xC0, 10, 0, 20])
      rfl rfl).2.2 (by decide)⟩

/-! ## Duplicate suppression -/

/-- C4: when two consecutive `touch_read` calls both succeed on the bus and
both read the same 7 bytes, the second call returns 0, whatever the driver
state before the first call was. -/
theorem touch_read_second_identical_zero (h : TouchHeader) (s : TouchState)
    (first second : I2CReply)
    (hw1 : first.transmit = HAL_OK) (hr1 : first.receive = HAL_OK)
    (hw2 : second.transmit = HAL_OK) (hr2 : second.receive = HAL_OK)
    (hsame : second.rx = first.rx) :
    (touch_read h (touch_read h s first).state second).ret = 0 := by
  have hprev := touch_read_ok_previous h s first hw1 hr1
  rw [touch_read_duplicate h (touch_read h s first).state second hw2 hr2
    (hprev.trans hsame.symm)]

/-- Witness for C4: the press-down packet at (10, 20) read twice from the
zero-initialised driver. -/
theorem touch_read_second_identical_zero_witness :
    (touch_read touch_h
      (touch_read touch_h TouchState.init (I2CReply.ok ![0, 0, 1, 0x00, 10, 0, 20])).state
      (I2CReply.ok ![0, 0, 1, 0x00, 10, 0, 20])).ret = 0 :=
  touch_read_second_identical_zero touch_h TouchState.init
    (I2CReply.ok ![0, 0, 1, 0x00, 10, 0, 20]) (I2CReply.ok ![0, 0, 1, 0x00, 10, 0, 20])
    rfl rfl rfl rfl rfl

/-- C5: among any number of consecutive `touch_read` calls in which every
successful read delivers the same packet `p` (failed polls may be
interleaved), at most one call returns a non-zero event. -/
theorem touch_read_seq_at_most_one_event (h : TouchHeader) (p : Packet)
    (replies : List I2CReply) (s : TouchState)
    (hall : ∀ b ∈ replies, b.transmit = HAL_OK → b.receive = HAL_OK → b.rx = p) :
    ((touch_read_seq h s replies).filter (fun r => r.ret ≠ 0)).length ≤ 1 := by
  induction replies generalizing s with
  | nil => simp [touch_read_seq]
  | cons b bs ih =>
    have hbs : ∀ c ∈ bs, c.transmit = HAL_OK → c.receive = HAL_OK → c.rx = p :=
      fun c hc => hall c (List.mem_cons_of_mem _ hc)
    by_cases hok : b.transmit = HAL_OK ∧ b.receive = HAL_OK
    · have hrx : b.rx = p := hall b (List.mem_cons_self _ _) hok.1 hok.2
      have hprev : (touch_read h s b).state.previous_touch_data = p := by
        rw [touch_read_ok_previous h s b hok.1 hok.2, hrx]
      have hzero := touch_read_seq_all_zero h p bs (touch_read h s b).state hprev hbs
      have hnil : (touch_read_seq h (touch_read h s b).state bs).filter
          (fun r => r.ret ≠ 0) = [] := by
        rw [List.filter_eq_nil_iff]
        intro r hr
        simp [hzero r hr]
      simp only [touch_read_seq, List.filter_cons, hnil]
      split_ifs <;> simp
    · have hf := touch_read_failed h s b hok
      simp only [touch_read_seq, List.filter_cons, hf.1, ne_eq, not_true_eq_false,
        decide_False, Bool.false_eq_true, if_false]
      exact ih (touch_read h s b).state hbs

/-- Witness for C5: from the zero-initialised driver the press-down packet at
(10, 20) is delivered by the first, third and fifth poll, the second poll
fails on the write and the fourth on the read. -/
theorem touch_read_seq_at_most_one_event_witness :
    ((touch_read_seq touch_h TouchState.init
        [I2CReply.ok ![0, 0, 1, 0x00, 10, 0, 20],
         ⟨HAL_ERROR, HAL_OK, ![0, 0, 1, 0x80, 11, 0, 21]⟩,
         I2CReply.ok ![0, 0, 1, 0x00, 10, 0, 20],
         ⟨HAL_OK, HAL_TIMEOUT, ![0, 0, 1, 0x80, 11, 0, 21]⟩,
         I2CReply.ok ![0, 0, 1, 0x00, 10, 0, 20]]).filter (fun r => r.ret ≠ 0)).length ≤ 1 :=
  touch_read_seq_at_most_one_event touch_h ![0, 0, 1, 0x00, 10, 0, 20]
    [I2CReply.ok ![0, 0, 1, 0x00, 10, 0, 20],
     ⟨HAL_ERROR, HAL_OK, ![0, 0, 1, 0x80, 11, 0, 21]⟩,
     I2CReply.ok ![0, 0, 1, 0x00, 10, 0, 20],
     ⟨HAL_OK, HAL_TIMEOUT, ![0, 0, 1, 0x80, 11, 0, 21]⟩,
     I2CReply.ok ![0, 0, 1, 0x00, 10, 0, 20]] TouchState.init
    (by
      intro b hb hw hr
      simp only [List.mem_cons, List.mem_singleton, List.not_mem_nil, or_false] at hb
      rcases hb with hb | hb | hb | hb | hb
      · rw [hb]; rfl
      · rw [hb] at hw; exact absurd hw (by decide)
      · rw [hb]; rfl
      · rw [hb] at hr; exact absurd hr (by decide)
      · rw [hb]; rfl)

/-! ## Bus failures -/

/-- C6: when the register-select write fails, `touch_read` returns 0 and the
only transaction it has issued is that write: no read transaction follows. -/
theorem touch_read_write_failure (h : TouchHeader) (s : TouchState) (reply : I2CReply)
    (hw : reply.transmit ≠ HAL_OK) :
    (touch_read h s reply).ret = 0
      ∧ (touch_read h s reply).bus = [I2CTransaction.Master_Transmit TOUCH_ADDRESS [0x00] 1]
      ∧ (∀ a n t, I2CTransaction.Master_Receive a n t ∉ (touch_read h s reply).bus) := by
  rw [touch_read_transmit_failed h s reply hw]
  refine ⟨rfl, rfl, ?_⟩
  intro a n t hmem
  simp at hmem

/-- Witness for C6: the write times out although a press-down packet would
have been available. -/
theorem touch_read_write_failure_witness :
    (touch_read touch_h TouchState.init ⟨HAL_TIMEOUT, HAL_OK, ![0, 0, 1, 0x00, 10, 0, 20]⟩).ret = 0
      ∧ (touch_read touch_h TouchState.init
          ⟨HAL_TIMEOUT, HAL_OK, ![0, 0, 1, 0x00, 10, 0, 20]⟩).bus
        = [I2CTransaction.Master_Transmit TOUCH_ADDRESS [0x00] 1]
      ∧ (∀ a n t, I2CTransaction.Master_Receive a n t ∉
          (touch_read touch_h TouchState.init
            ⟨HAL_TIMEOUT, HAL_OK, ![0, 0, 1, 0x00, 10, 0, 20]⟩).bus) :=
  touch_read_write_failure touch_h TouchState.init
    ⟨HAL_TIMEOUT, HAL_OK, ![0, 0, 1, 0x00, 10, 0, 20]⟩ (by decide)

/-- C7: when the write succeeds but the 7-byte read fails, `touch_read`
returns 0, whatever bytes the failed read left in the receive buffer. -/
theorem touch_read_read_failure (h : TouchHeader) (s : TouchState) (reply : I2CReply)
    (hw : reply.transmit = HAL_OK) (hr : reply.receive ≠ HAL_OK) :
    (touch_read h s reply).ret = 0 := by
  rw [touch_read_receive_failed h s reply hw hr]

/-- Witness for C7: the failed read leaves the bytes of a press-down, of a
contact and of a lift-up packet in the buffer. -/
theorem touch_read_read_failure_witness :
    (touch_read touch_h TouchState.init ⟨HAL_OK, HAL_ERROR, ![0, 0, 1, 0x00, 10, 0, 20]⟩).ret = 0
      ∧ (touch_read touch_h TouchState.init
          ⟨HAL_OK, HAL_BUSY, ![0, 0, 1, 0x80, 10, 0, 20]⟩).ret = 0
      ∧ (touch_read touch_h TouchState.init
          ⟨HAL_OK, HAL_TIMEOUT, ![0, 0, 0, 0x40, 10, 0, 20]⟩).ret = 0 :=
  ⟨touch_read_read_failure touch_h TouchState.init
      ⟨HAL_OK, HAL_ERROR, ![0, 0, 1, 0x00, 10, 0, 20]⟩ rfl (by decide),
   touch_read_read_failure touch_h TouchState.init
      ⟨HAL_OK, HAL_BUSY, ![0, 0, 1, 0x80, 10, 0, 20]⟩ rfl (by decide),
   touch_read_read_failure touch_h TouchState.init
      ⟨HAL_OK, HAL_TIMEOUT, ![0, 0, 0, 0x40, 10, 0, 20]⟩ rfl (by decide)⟩

/-! ## Tags and packed coordinates -/

/-- The packed coordinates occupy the low 24 bits. -/
theorem touch_pack_xy_lt (x y : Nat) : touch_pack_xy x y < 2 ^ 24 := by
  unfold touch_pack_xy
  apply Nat.or_lt_two_pow
  · have hx : x &&& 0xFFF < 2 ^ 12 := Nat.and_lt_two_pow x (by norm_num)
    rw [Nat.shiftLeft_eq]
    calc (x &&& 0xFFF) * 2 ^ 12 < 2 ^ 12 * 2 ^ 12 := Nat.mul_lt_mul_of_pos_right hx (by norm_num)
      _ = 2 ^ 24 := by norm_num
  · exact lt_of_lt_of_le (Nat.and_lt_two_pow y (by norm_num : 0xFFF < 2 ^ 12)) (by norm_num)

/-- A word below `2 ^ 24` has no bit at position 24 or above. -/
theorem testBit_payload (z k : Nat) (hz : z < 2 ^ 24) (hk : 24 ≤ k) : z.testBit k = false :=
  Nat.testBit_lt_two_pow (lt_of_lt_of_le hz (Nat.pow_le_pow_right (by norm_num) hk))

/-- Testing the tag bit `j` of a word made of the tag bit `i` and a 24-bit
payload. -/
theorem tag_or_payload_and_tag (i j z : Nat) (hz : z < 2 ^ 24) (hj : 24 ≤ j) :
    (2 ^ i ||| z) &&& 2 ^ j = if i = j then 2 ^ j else 0 := by
  apply Nat.eq_of_testBit_eq
  intro k
  simp only [Nat.testBit_and, Nat.testBit_or, Nat.testBit_two_pow]
  by_cases hjk : j = k
  · have hzk : z.testBit k = false := testBit_payload z k hz (hjk ▸ hj)
    by_cases hij : i = j
    · simp [hij, hjk, Nat.testBit_two_pow]
    · have hik : ¬ i = k := fun e => hij (e.trans hjk.symm)
      simp [hij, hjk, hik, hzk]
  · by_cases hij : i = j
    · simp [hij, hjk, Nat.testBit_two_pow]
    · simp [hij, hjk]

/-- The word `touch_read` returns is 0 or a tag ORed with packed
coordinates. -/
theorem touch_read_ret_cases (h : TouchHeader) (s : TouchState) (reply : I2CReply) :
    (touch_read h s reply).ret = 0
      ∨ ∃ x y, (touch_read h s reply).ret = h.TOUCH_START ||| h.touch_pack_xy x y
        ∨ (touch_read h s reply).ret = h.TOUCH_MOVE ||| h.touch_pack_xy x y
        ∨ (touch_read h s reply).ret = h.TOUCH_END ||| h.touch_pack_xy x y := by
  simp only [touch_read]
  split_ifs
  all_goals first
    | exact Or.inl rfl
    | exact Or.inr ⟨_, _, Or.inl rfl⟩
    | exact Or.inr ⟨_, _, Or.inr (Or.inl rfl)⟩
    | exact Or.inr ⟨_, _, Or.inr (Or.inr rfl)⟩

/-- A 24-bit payload has none of the tag bits. -/
theorem payload_and_tag (j z : Nat) (hz : z < 2 ^ 24) (hj : 24 ≤ j) : z &&& 2 ^ j = 0 := by
  apply Nat.eq_of_testBit_eq
  intro k
  simp only [Nat.testBit_and, Nat.testBit_two_pow, Nat.zero_testBit]
  by_cases hjk : j = k
  · simp [testBit_payload z k hz (hjk ▸ hj)]
  · simp [hjk]

theorem TOUCH_START_eq : TOUCH_START = 2 ^ 24 := by decide

theorem TOUCH_MOVE_eq : TOUCH_MOVE = 2 ^ 25 := by decide

theorem TOUCH_END_eq : TOUCH_END = 2 ^ 26 := by decide

/-- Testing the three tag bits of a tagged word, for a tag at bit `i`. -/
theorem tagged_word_tests (i x y : Nat) :
    (2 ^ i ||| touch_pack_xy x y) &&& TOUCH_START = (if i = 24 then 2 ^ 24 else 0)
      ∧ (2 ^ i ||| touch_pack_xy x y) &&& TOUCH_MOVE = (if i = 25 then 2 ^ 25 else 0)
      ∧ (2 ^ i ||| touch_pack_xy x y) &&& TOUCH_END = (if i = 26 then 2 ^ 26 else 0) := by
  rw [TOUCH_START_eq, TOUCH_MOVE_eq, TOUCH_END_eq]
  exact ⟨tag_or_payload_and_tag i 24 _ (touch_pack_xy_lt x y) (by norm_num),
    tag_or_payload_and_tag i 25 _ (touch_pack_xy_lt x y) (by norm_num),
    tag_or_payload_and_tag i 26 _ (touch_pack_xy_lt x y) (by norm_num)⟩

/-- C8: with the header of the specification, every word `touch_read` returns
is 0 or has exactly one of the tag bits `TOUCH_START`, `TOUCH_MOVE`,
`TOUCH_END` set; the three tags are pairwise distinct, non-zero and disjoint
from the 24 bits of the packed coordinates, so that testing a tag bit of a
tagged word tells its kind for every coordinate value. -/
theorem touch_read_tag_identifies_kind (s : TouchState) (reply : I2CReply) :
    ((touch_read touch_h s reply).ret = 0
        ∨ ((touch_read touch_h s reply).ret &&& TOUCH_START ≠ 0
            ∧ (touch_read touch_h s reply).ret &&& TOUCH_MOVE = 0
            ∧ (touch_read touch_h s reply).ret &&& TOUCH_END = 0)
        ∨ ((touch_read touch_h s reply).ret &&& TOUCH_START = 0
            ∧ (touch_read touch_h s reply).ret &&& TOUCH_MOVE ≠ 0
            ∧ (touch_read touch_h s reply).ret &&& TOUCH_END = 0)
        ∨ ((touch_read touch_h s reply).ret &&& TOUCH_START = 0
            ∧ (touch_read touch_h s reply).ret &&& TOUCH_MOVE = 0
            ∧ (touch_read touch_h s reply).ret &&& TOUCH_END ≠ 0))
      ∧ (TOUCH_START ≠ TOUCH_MOVE ∧ TOUCH_START ≠ TOUCH_END ∧ TOUCH_MOVE ≠ TOUCH_END)
      ∧ (TOUCH_START ≠ 0 ∧ TOUCH_MOVE ≠ 0 ∧ TOUCH_END ≠ 0)
      ∧ (TOUCH_START &&& 0xFFFFFF = 0 ∧ TOUCH_MOVE &&& 0xFFFFFF = 0
          ∧ TOUCH_END &&& 0xFFFFFF = 0)
      ∧ (∀ x y, touch_pack_xy x y < 2 ^ 24
          ∧ touch_pack_xy x y &&& TOUCH_START = 0
          ∧ touch_pack_xy x y &&& TOUCH_MOVE = 0
          ∧ touch_pack_xy x y &&& TOUCH_END = 0)
      ∧ (∀ x y,
          ((TOUCH_START ||| touch_pack_xy x y) &&& TOUCH_START = TOUCH_START
            ∧ (TOUCH_START ||| touch_pack_xy x y) &&& TOUCH_MOVE = 0
            ∧ (TOUCH_START ||| touch_pack_xy x y) &&& TOUCH_END = 0)
          ∧ ((TOUCH_MOVE ||| touch_pack_xy x y) &&& TOUCH_START = 0
            ∧ (TOUCH_MOVE ||| touch_pack_xy x y) &&& TOUCH_MOVE = TOUCH_MOVE
            ∧ (TOUCH_MOVE ||| touch_pack_xy x y) &&& TOUCH_END = 0)
          ∧ ((TOUCH_END ||| touch_pack_xy x y) &&& TOUCH_START = 0
            ∧ (TOUCH_END ||| touch_pack_xy x y) &&& TOUCH_MOVE = 0
            ∧ (TOUCH_END ||| touch_pack_xy x y) &&& TOUCH_END = TOUCH_END)) := by
  have hS : ∀ x y, (TOUCH_START ||| touch_pack_xy x y) &&& TOUCH_START = TOUCH_START
      ∧ (TOUCH_START ||| touch_pack_xy x y) &&& TOUCH_MOVE = 0
      ∧ (TOUCH_START ||| touch_pack_xy x y) &&& TOUCH_END = 0 := by
    intro x y
    have ht := tagged_word_tests 24 x y
    rw [← TOUCH_START_eq] at ht
    simpa using ht
  have hM : ∀ x y, (TOUCH_MOVE ||| touch_pack_xy x y) &&& TOUCH_START = 0
      ∧ (TOUCH_MOVE ||| touch_pack_xy x y) &&& TOUCH_MOVE = TOUCH_MOVE
      ∧ (TOUCH_MOVE ||| touch_pack_xy x y) &&& TOUCH_END = 0 := by
    intro x y
    have ht := tagged_word_tests 25 x y
    rw [← TOUCH_MOVE_eq] at ht
    simpa using ht
  have hE : ∀ x y, (TOUCH_END ||| touch_pack_xy x y) &&& TOUCH_START = 0
      ∧ (TOUCH_END ||| touch_pack_xy x y) &&& TOUCH_MOVE = 0
      ∧ (TOUCH_END ||| touch_pack_xy x y) &&& TOUCH_END = TOUCH_END := by
    intro x y
    have ht := tagged_word_tests 26 x y
    rw [← TOUCH_END_eq] at ht
    simpa using ht
  refine ⟨?_, by decide, by decide, by decide, ?_, fun x y => ⟨hS x y, hM x y, hE x y⟩⟩
  · rcases touch_read_ret_cases touch_h s reply with h0 | ⟨x, y, h1 | h1 | h1⟩
    · exact Or.inl h0
    · refine Or.inr (Or.inl ?_)
      have h2 : (touch_read touch_h s reply).ret = TOUCH_START ||| touch_pack_xy x y := h1
      rw [h2]
      exact ⟨by rw [(hS x y).1]; decide, (hS x y).2.1, (hS x y).2.2⟩
    · refine Or.inr (Or.inr (Or.inl ?_))
      have h2 : (touch_read touch_h s reply).ret = TOUCH_MOVE ||| touch_pack_xy x y := h1
      rw [h2]
      exact ⟨(hM x y).1, by rw [(hM x y).2.1]; decide, (hM x y).2.2⟩
    · refine Or.inr (Or.inr (Or.inr ?_))
      have h2 : (touch_read touch_h s reply).ret = TOUCH_END ||| touch_pack_xy x y := h1
      rw [h2]
      exact ⟨(hE x y).1, (hE x y).2.1, by rw [(hE x y).2.2]; decide⟩
  · intro x y
    have hlt := touch_pack_xy_lt x y
    rw [TOUCH_START_eq, TOUCH_MOVE_eq, TOUCH_END_eq]
    exact ⟨hlt, payload_and_tag 24 _ hlt (by norm_num), payload_and_tag 25 _ hlt (by norm_num),
      payload_and_tag 26 _ hlt (by norm_num)⟩

/-- The mask `0xFFF` keeps the low 12 bits. -/
theorem mask12 : (0xFFF : Nat) = 2 ^ 12 - 1 := by norm_num

/-- A 12-bit value has no bit at position 12 or above. -/
theorem testBit_12 (x k : Nat) (hx : x < 2 ^ 12) (hk : 12 ≤ k) : x.testBit k = false :=
  Nat.testBit_lt_two_pow (lt_of_lt_of_le hx (Nat.pow_le_pow_right (by norm_num) hk))

/-- Unpacking a word made of packed 12-bit coordinates and of bits at
position 24 or above only. -/
theorem unpack_tagged (t x y : Nat) (ht : ∀ k, k < 24 → t.testBit k = false)
    (hx : x < 2 ^ 12) (hy : y < 2 ^ 12) :
    touch_get_x (t ||| touch_pack_xy x y) = x ∧ touch_get_y (t ||| touch_pack_xy x y) = y := by
  unfold touch_get_x touch_get_y touch_pack_xy
  rw [mask12]
  constructor
  · apply Nat.eq_of_testBit_eq
    intro k
    simp only [Nat.testBit_and, Nat.testBit_or, Nat.testBit_shiftRight, Nat.testBit_shiftLeft,
      Nat.testBit_two_pow_sub_one]
    by_cases hk : k < 12
    · have h1 : t.testBit (12 + k) = false := ht _ (by omega)
      have h2 : ¬ (12 + k < 12) := by omega
      simp [hk, h1, h2]
    · have h1 : x.testBit k = false := testBit_12 x k hx (by omega)
      simp [hk, h1]
  · apply Nat.eq_of_testBit_eq
    intro k
    simp only [Nat.testBit_and, Nat.testBit_or, Nat.testBit_shiftRight, Nat.testBit_shiftLeft,
      Nat.testBit_two_pow_sub_one, Nat.zero_add]
    by_cases hk : k < 12
    · have h1 : t.testBit k = false := ht _ (by omega)
      have h2 : ¬ (12 ≤ k) := by omega
      simp [hk, h1, h2]
    · have h1 : y.testBit k = false := testBit_12 y k hy (by omega)
      simp [hk, h1]

/-- A tag at bit 24 or above has no bit among the 24 payload bits. -/
theorem tag_testBit_low (i k : Nat) (hi : 24 ≤ i) (hk : k < 24) : (2 ^ i).testBit k = false :=
  Nat.testBit_two_pow_of_ne (by omega)

/-- C9: for every `x` and `y` in 0..4095, unpacking the X and Y fields of
`touch_pack_xy(x, y)` recovers exactly `x` and `y`, also after one of the tags
`TOUCH_START`, `TOUCH_MOVE`, `TOUCH_END` has been ORed into the word. -/
theorem touch_pack_xy_roundtrip (x y : Nat) (hx : x ≤ 4095) (hy : y ≤ 4095) :
    (touch_get_x (touch_pack_xy x y) = x ∧ touch_get_y (touch_pack_xy x y) = y)
      ∧ (touch_get_x (TOUCH_START ||| touch_pack_xy x y) = x
          ∧ touch_get_y (TOUCH_START ||| touch_pack_xy x y) = y)
      ∧ (touch_get_x (TOUCH_MOVE ||| touch_pack_xy x y) = x
          ∧ touch_get_y (TOUCH_MOVE ||| touch_pack_xy x y) = y)
      ∧ (touch_get_x (TOUCH_END ||| touch_pack_xy x y) = x
          ∧ touch_get_y (TOUCH_END ||| touch_pack_xy x y) = y) := by
  have hx2 : x < 2 ^ 12 := by omega
  have hy2 : y < 2 ^ 12 := by omega
  refine ⟨?_, ?_, ?_, ?_⟩
  · have h0 := unpack_tagged 0 x y (fun k _ => Nat.zero_testBit k) hx2 hy2
    rwa [Nat.zero_or] at h0
  · rw [TOUCH_START_eq]
    exact unpack_tagged _ x y (fun k hk => tag_testBit_low 24 k (by norm_num) hk) hx2 hy2
  · rw [TOUCH_MOVE_eq]
    exact unpack_tagged _ x y (fun k hk => tag_testBit_low 25 k (by norm_num) hk) hx2 hy2
  · rw [TOUCH_END_eq]
    exact unpack_tagged _ x y (fun k hk => tag_testBit_low 26 k (by norm_num) hk) hx2 hy2

/-- Witness for C9 at the two ends of the 12-bit range, (0, 0) and
(4095, 4095). -/
theorem touch_pack_xy_roundtrip_witness :
    ((touch_get_x (touch_pack_xy 0 0) = 0 ∧ touch_get_y (touch_pack_xy 0 0) = 0)
      ∧ (touch_get_x (TOUCH_START ||| touch_pack_xy 0 0) = 0
          ∧ touch_get_y (TOUCH_START ||| touch_pack_xy 0 0) = 0)
      ∧ (touch_get_x (TOUCH_MOVE ||| touch_pack_xy 0 0) = 0
          ∧ touch_get_y (TOUCH_MOVE ||| touch_pack_xy 0 0) = 0)
      ∧ (touch_get_x (TOUCH_END ||| touch_pack_xy 0 0) = 0
          ∧ touch_get_y (TOUCH_END ||| touch_pack_xy 0 0) = 0))
    ∧ ((touch_get_x (touch_pack_xy 4095 4095) = 4095
          ∧ touch_get_y (touch_pack_xy 4095 4095) = 4095)
      ∧ (touch_get_x (TOUCH_START ||| touch_pack_xy 4095 4095) = 4095
          ∧ touch_get_y (TOUCH_START ||| touch_pack_xy 4095 4095) = 4095)
      ∧ (touch_get_x (TOUCH_MOVE ||| touch_pack_xy 4095 4095) = 4095
          ∧ touch_get_y (TOUCH_MOVE ||| touch_pack_xy 4095 4095) = 4095)
      ∧ (touch_get_x (TOUCH_END ||| touch_pack_xy 4095 4095) = 4095
          ∧ touch_get_y (TOUCH_END ||| touch_pack_xy 4095 4095) = 4095)) :=
  ⟨touch_pack_xy_roundtrip 0 0 (by decide) (by decide),
   touch_pack_xy_roundtrip 4095 4095 (by decide) (by decide)⟩

/-! ## `touch_click` on a script -/

/-- C10: against the scripted `touch_read` results
`[0, Start(10,20), Move(10,21), Move(12,22), End(12,22), 0]`, `touch_click`
returns the End event, which carries the coordinate (12, 22), after exactly 6
`touch_read` calls: it has made 6 calls when it returns and has not returned
after any smaller number of them. -/
theorem touch_click_script :
    touch_click touch_h
        [0, TOUCH_START ||| touch_pack_xy 10 20, TOUCH_MOVE ||| touch_pack_xy 10 21,
         TOUCH_MOVE ||| touch_pack_xy 12 22, TOUCH_END ||| touch_pack_xy 12 22, 0]
        = some (TOUCH_END ||| touch_pack_xy 12 22, 6)
      ∧ touch_get_x (TOUCH_END ||| touch_pack_xy 12 22) = 12
      ∧ touch_get_y (TOUCH_END ||| touch_pack_xy 12 22) = 22
      ∧ (∀ k, k < 6 → touch_click touch_h
          (List.take k
            [0, TOUCH_START ||| touch_pack_xy 10 20, TOUCH_MOVE ||| touch_pack_xy 10 21,
             TOUCH_MOVE ||| touch_pack_xy 12 22, TOUCH_END ||| touch_pack_xy 12 22, 0])
          = none) := by
  decide

/-! ## Fresh packets -/

/-- A word with a non-zero part ORed in is not zero. -/
theorem or_ne_zero_left (a b : Nat) (ha : a ≠ 0) : a ||| b ≠ 0 := by
  intro hab
  apply ha
  apply Nat.eq_of_testBit_eq
  intro i
  have hi : (a ||| b).testBit i = false := by rw [hab]; exact Nat.zero_testBit i
  rw [Nat.testBit_or, Bool.or_eq_false_iff] at hi
  rw [hi.1, Nat.zero_testBit]

/-- The word returned for a successfully read packet that is not a duplicate
does not depend on the static buffers. -/
theorem touch_read_fresh_ret (h : TouchHeader) (s t : TouchState) (reply : I2CReply)
    (hw : reply.transmit = HAL_OK) (hr : reply.receive = HAL_OK)
    (hs : s.previous_touch_data ≠ reply.rx) (ht : t.previous_touch_data ≠ reply.rx) :
    (touch_read h s reply).ret = (touch_read h t reply).ret := by
  simp only [touch_read, hw, hr, hs, ht, ne_eq, not_true_eq_false, if_false]

/-- A successfully read packet that matches a row of the table and is not a
duplicate gives a non-zero word, as soon as the three tags are non-zero. -/
theorem touch_read_row_ne_zero (h : TouchHeader) (s : TouchState) (reply : I2CReply)
    (hS : h.TOUCH_START ≠ 0) (hM : h.TOUCH_MOVE ≠ 0) (hE : h.TOUCH_END ≠ 0)
    (hw : reply.transmit = HAL_OK) (hr : reply.receive = HAL_OK)
    (hs : s.previous_touch_data ≠ reply.rx) (hrow : table_row reply.rx) :
    (touch_read h s reply).ret ≠ 0 := by
  obtain ⟨hg, hrows⟩ := hrow
  simp only [touch_read, hw, hr, hs, hg, ne_eq, not_true_eq_false, if_false, if_true]
  rcases hrows with hrow | hrow | hrow
  · rw [if_pos hrow]
    exact or_ne_zero_left _ _ hS
  · split_ifs
    · exact or_ne_zero_left _ _ hS
    · exact or_ne_zero_left _ _ hM
  · split_ifs
    · exact or_ne_zero_left _ _ hS
    · exact or_ne_zero_left _ _ hM
    · exact or_ne_zero_left _ _ hE

/-- The all-zero packet matches no row of the table. -/
theorem table_row_zero : ¬ table_row (fun _ => 0) := by decide

/-! ## The loops of `touch_click` -/

theorem touch_click_run_cons (h : TouchHeader) (c : ClickState) (v : Nat) (vs : List Nat) :
    touch_click_run h c (v :: vs) = touch_click_run h (touch_click_step h c v) vs := rfl

/-- Past the `return` nothing changes. -/
theorem touch_click_run_returned (h : TouchHeader) (r n : Nat) (vs : List Nat) :
    touch_click_run h ⟨ClickLoop.returned, r, n⟩ vs = ⟨ClickLoop.returned, r, n⟩ := by
  induction vs with
  | nil => rfl
  | cons v vs ih => rw [touch_click_run_cons]; exact ih

/-- The last loop does not assign `r`. -/
theorem touch_click_run_flush_after (h : TouchHeader) (r : Nat) (vs : List Nat) :
    ∀ n, (touch_click_run h ⟨ClickLoop.flush_after, r, n⟩ vs).r = r := by
  induction vs with
  | nil => intro n; rfl
  | cons v vs ih =>
    intro n
    rw [touch_click_run_cons]
    by_cases hv : v = 0
    · have hstep : touch_click_step h ⟨ClickLoop.flush_after, r, n⟩ v
          = ⟨ClickLoop.returned, r, n + 1⟩ := by simp [touch_click_step, hv]
      rw [hstep, touch_click_run_returned]
    · have hstep : touch_click_step h ⟨ClickLoop.flush_after, r, n⟩ v
          = ⟨ClickLoop.flush_after, r, n + 1⟩ := by simp [touch_click_step, hv]
      rw [hstep]
      exact ih (n + 1)

/-- The third loop: if `touch_click` returns, the value returned is the first
word with the End tag. -/
theorem touch_click_run_wait_end (h : TouchHeader) (vs : List Nat) :
    ∀ r0 n, (touch_click_run h ⟨ClickLoop.wait_end, r0, n⟩ vs).loop = ClickLoop.returned →
      ∃ mid tail, vs = mid ++ (touch_click_run h ⟨ClickLoop.wait_end, r0, n⟩ vs).r :: tail
        ∧ (∀ v ∈ mid, v &&& h.TOUCH_END = 0)
        ∧ (touch_click_run h ⟨ClickLoop.wait_end, r0, n⟩ vs).r &&& h.TOUCH_END ≠ 0 := by
  induction vs with
  | nil =>
    intro r0 n hret
    exact absurd (show ClickLoop.wait_end = ClickLoop.returned from hret) (by decide)
  | cons v vs ih =>
    intro r0 n hret
    rw [touch_click_run_cons] at hret ⊢
    by_cases hv : v &&& h.TOUCH_END = 0
    · have hstep : touch_click_step h ⟨ClickLoop.wait_end, r0, n⟩ v
          = ⟨ClickLoop.wait_end, v, n + 1⟩ := by simp [touch_click_step, hv]
      rw [hstep] at hret ⊢
      obtain ⟨mid, tail, hvs, hmid, hend⟩ := ih v (n + 1) hret
      refine ⟨v :: mid, tail, ?_, ?_, hend⟩
      · rw [List.cons_append, ← hvs]
      · intro w hw
        rcases List.mem_cons.mp hw with hw | hw
        · rw [hw]; exact hv
        · exact hmid w hw
    · have hstep : touch_click_step h ⟨ClickLoop.wait_end, r0, n⟩ v
          = ⟨ClickLoop.flush_after, v, n + 1⟩ := by simp [touch_click_step, hv]
      rw [hstep, touch_click_run_flush_after]
      exact ⟨[], vs, rfl, fun w hw => absurd hw (List.not_mem_nil w), hv⟩

/-- The second loop: if `touch_click` returns, the loop was left at the first
word with the Start tag. -/
theorem touch_click_run_wait_start (h : TouchHeader) (vs : List Nat) :
    ∀ r0 n, (touch_click_run h ⟨ClickLoop.wait_start, r0, n⟩ vs).loop = ClickLoop.returned →
      ∃ mid st rest, vs = mid ++ st :: rest
        ∧ (∀ v ∈ mid, v &&& h.TOUCH_START = 0)
        ∧ st &&& h.TOUCH_START ≠ 0
        ∧ touch_click_run h ⟨ClickLoop.wait_start, r0, n⟩ vs
          = touch_click_run h ⟨ClickLoop.wait_end, r0, n + mid.length + 1⟩ rest := by
  induction vs with
  | nil =>
    intro r0 n hret
    exact absurd (show ClickLoop.wait_start = ClickLoop.returned from hret) (by decide)
  | cons v vs ih =>
    intro r0 n hret
    rw [touch_click_run_cons] at hret ⊢
    by_cases hv : v &&& h.TOUCH_START = 0
    · have hstep : touch_click_step h ⟨ClickLoop.wait_start, r0, n⟩ v
          = ⟨ClickLoop.wait_start, r0, n + 1⟩ := by simp [touch_click_step, hv]
      rw [hstep] at hret ⊢
      obtain ⟨mid, st, rest, hvs, hmid, hst, hrun⟩ := ih r0 (n + 1) hret
      refine ⟨v :: mid, st, rest, ?_, ?_, hst, ?_⟩
      · rw [List.cons_append, ← hvs]
      · intro w hw
        rcases List.mem_cons.mp hw with hw | hw
        · rw [hw]; exact hv
        · exact hmid w hw
      · rw [hrun, List.length_cons]
        congr 2
        omega
    · have hstep : touch_click_step h ⟨ClickLoop.wait_start, r0, n⟩ v
          = ⟨ClickLoop.wait_end, r0, n + 1⟩ := by simp [touch_click_step, hv]
      rw [hstep]
      exact ⟨[], v, vs, rfl, fun w hw => absurd hw (List.not_mem_nil w), hv, rfl⟩

/-- The first loop: if `touch_click` returns, the loop was left at the first
word 0. -/
theorem touch_click_run_flush_before (h : TouchHeader) (vs : List Nat) :
    ∀ r0 n, (touch_click_run h ⟨ClickLoop.flush_before, r0, n⟩ vs).loop = ClickLoop.returned →
      ∃ pre rest, vs = pre ++ 0 :: rest
        ∧ (∀ v ∈ pre, v ≠ 0)
        ∧ touch_click_run h ⟨ClickLoop.flush_before, r0, n⟩ vs
          = touch_click_run h ⟨ClickLoop.wait_start, r0, n + pre.length + 1⟩ rest := by
  induction vs with
  | nil =>
    intro r0 n hret
    exact absurd (show ClickLoop.flush_before = ClickLoop.returned from hret) (by decide)
  | cons v vs ih =>
    intro r0 n hret
    rw [touch_click_run_cons] at hret ⊢
    by_cases hv : v = 0
    · have hstep : touch_click_step h ⟨ClickLoop.flush_before, r0, n⟩ v
          = ⟨ClickLoop.wait_start, r0, n + 1⟩ := by simp [touch_click_step, hv]
      rw [hstep]
      exact ⟨[], vs, by rw [hv]; rfl, fun w hw => absurd hw (List.not_mem_nil w), rfl⟩
    · have hstep : touch_click_step h ⟨ClickLoop.flush_before, r0, n⟩ v
          = ⟨ClickLoop.flush_before, r0, n + 1⟩ := by simp [touch_click_step, hv]
      rw [hstep] at hret ⊢
      obtain ⟨pre, rest, hvs, hpre, hrun⟩ := ih r0 (n + 1) hret
      refine ⟨v :: pre, rest, ?_, ?_, ?_⟩
      · rw [List.cons_append, ← hvs]
      · intro w hw
        rcases List.mem_cons.mp hw with hw | hw
        · rw [hw]; exact hv
        · exact hpre w hw
      · rw [hrun, List.length_cons]
        congr 2
        omega

/-- The shape of every sequence of words on which `touch_click` returns, for
every header: the value returned is the first End-tagged word after the first
Start-tagged word after the first 0. -/
theorem touch_click_shape (h : TouchHeader) (vs : List Nat) (r n : Nat)
    (hret : touch_click h vs = some (r, n)) :
    r &&& h.TOUCH_END ≠ 0
      ∧ ∃ pre mid st mid2 tail, vs = pre ++ 0 :: (mid ++ st :: (mid2 ++ r :: tail))
        ∧ (∀ v ∈ pre, v ≠ 0)
        ∧ (∀ v ∈ mid, v &&& h.TOUCH_START = 0)
        ∧ st &&& h.TOUCH_START ≠ 0
        ∧ (∀ v ∈ mid2, v &&& h.TOUCH_END = 0) := by
  unfold touch_click at hret
  simp only at hret
  split_ifs at hret with hloop
  have hr : (touch_click_run h ClickState.entry vs).r = r := by
    have := Option.some.inj hret
    exact congrArg Prod.fst this
  obtain ⟨pre, rest1, hvs1, hpre, hrun1⟩ := touch_click_run_flush_before h vs 0 0 hloop
  have hloop1 := hloop
  rw [show ClickState.entry = ⟨ClickLoop.flush_before, 0, 0⟩ from rfl, hrun1] at hloop1
  obtain ⟨mid, st, rest2, hvs2, hmid, hst, hrun2⟩ :=
    touch_click_run_wait_start h rest1 0 _ hloop1
  have hloop2 := hloop1
  rw [hrun2] at hloop2
  obtain ⟨mid2, tail, hvs3, hmid2, hend⟩ := touch_click_run_wait_end h rest2 0 _ hloop2
  have hr2 : (touch_click_run h ⟨ClickLoop.wait_end, 0, 0 + pre.length + 1 + mid.length + 1⟩
      rest2).r = r := by
    rw [← hr, show ClickState.entry = ⟨ClickLoop.flush_before, 0, 0⟩ from rfl, hrun1, hrun2]
  rw [hr2] at hvs3 hend
  refine ⟨hend, pre, mid, st, mid2, tail, ?_, hpre, hmid, hst, hmid2⟩
  rw [hvs1, hvs2]
  rw [← hvs3]

/-- C11: on every sequence of `touch_read` results on which `touch_click`
returns, the returned value has the `TOUCH_END` tag set, so it is never 0, a
Start or a Move event, and it is the first End-tagged result after the first
Start-tagged result after the first 0 result of the sequence; what comes
before that first 0, a Start included, is discarded. -/
theorem touch_click_returns_first_end (vs : List Nat) (r n : Nat)
    (hret : touch_click touch_h vs = some (r, n)) :
    r &&& TOUCH_END ≠ 0
      ∧ r ≠ 0
      ∧ (∀ x y, r ≠ TOUCH_START ||| touch_pack_xy x y)
      ∧ (∀ x y, r ≠ TOUCH_MOVE ||| touch_pack_xy x y)
      ∧ ∃ pre mid st mid2 tail, vs = pre ++ 0 :: (mid ++ st :: (mid2 ++ r :: tail))
        ∧ (∀ v ∈ pre, v ≠ 0)
        ∧ (∀ v ∈ mid, v &&& TOUCH_START = 0)
        ∧ st &&& TOUCH_START ≠ 0
        ∧ (∀ v ∈ mid2, v &&& TOUCH_END = 0) := by
  obtain ⟨hend, hshape⟩ := touch_click_shape touch_h vs r n hret
  have hend2 : r &&& TOUCH_END ≠ 0 := hend
  refine ⟨hend2, ?_, ?_, ?_, hshape⟩
  · intro h0
    apply hend2
    rw [h0, Nat.zero_and]
  · intro x y hxy
    apply hend2
    have ht := (tagged_word_tests 24 x y).2.2
    rw [← TOUCH_START_eq] at ht
    rw [hxy, ht]
    simp
  · intro x y hxy
    apply hend2
    have ht := (tagged_word_tests 25 x y).2.2
    rw [← TOUCH_MOVE_eq] at ht
    rw [hxy, ht]
    simp

/-- Witness for C11: a Start and an End arrive before the first 0 and are
discarded; the click that follows ends at (12, 22). -/
theorem touch_click_returns_first_end_witness :
    (TOUCH_END ||| touch_pack_xy 12 22) &&& TOUCH_END ≠ 0
      ∧ TOUCH_END ||| touch_pack_xy 12 22 ≠ 0
      ∧ (∀ x y, TOUCH_END ||| touch_pack_xy 12 22 ≠ TOUCH_START ||| touch_pack_xy x y)
      ∧ (∀ x y, TOUCH_END ||| touch_pack_xy 12 22 ≠ TOUCH_MOVE ||| touch_pack_xy x y)
      ∧ ∃ pre mid st mid2 tail,
        [TOUCH_START ||| touch_pack_xy 1 1, TOUCH_END ||| touch_pack_xy 1 1, 0,
          TOUCH_MOVE ||| touch_pack_xy 5 5, TOUCH_START ||| touch_pack_xy 10 20,
          TOUCH_MOVE ||| touch_pack_xy 11 21, TOUCH_END ||| touch_pack_xy 12 22, 0]
          = pre ++ 0 :: (mid ++ st :: (mid2 ++ (TOUCH_END ||| touch_pack_xy 12 22) :: tail))
        ∧ (∀ v ∈ pre, v ≠ 0)
        ∧ (∀ v ∈ mid, v &&& TOUCH_START = 0)
        ∧ st &&& TOUCH_START ≠ 0
        ∧ (∀ v ∈ mid2, v &&& TOUCH_END = 0) :=
  touch_click_returns_first_end
    [TOUCH_START ||| touch_pack_xy 1 1, TOUCH_END ||| touch_pack_xy 1 1, 0,
      TOUCH_MOVE ||| touch_pack_xy 5 5, TOUCH_START ||| touch_pack_xy 10 20,
      TOUCH_MOVE ||| touch_pack_xy 11 21, TOUCH_END ||| touch_pack_xy 12 22, 0]
    (TOUCH_END ||| touch_pack_xy 12 22) 8 (by decide)

/-! ## The stored previous packet -/

/-- C12, amended: when the stored previous packet differs from a packet `p`
that matches a row of the decode table, and two consecutive `touch_read`
calls both succeed and both read `p`, the first of the two calls returns a
non-zero event (and the second returns 0), for every header whose three tags
are non-zero. -/
theorem touch_read_first_of_pair_event (h : TouchHeader) (s : TouchState)
    (first second : I2CReply)
    (hS : h.TOUCH_START ≠ 0) (hM : h.TOUCH_MOVE ≠ 0) (hE : h.TOUCH_END ≠ 0)
    (hw1 : first.transmit = HAL_OK) (hr1 : first.receive = HAL_OK)
    (hw2 : second.transmit = HAL_OK) (hr2 : second.receive = HAL_OK)
    (hsame : second.rx = first.rx) (hrow : table_row first.rx)
    (hfresh : s.previous_touch_data ≠ first.rx) :
    (touch_read h s first).ret ≠ 0
      ∧ (touch_read h (touch_read h s first).state second).ret = 0 := by
  refine ⟨touch_read_row_ne_zero h s first hS hM hE hw1 hr1 hfresh hrow, ?_⟩
  have hprev := touch_read_ok_previous h s first hw1 hr1
  rw [touch_read_duplicate h (touch_read h s first).state second hw2 hr2
    (hprev.trans hsame.symm)]

/-- Witness for C12 as amended: the press-down packet at (10, 20) read twice
from the zero-initialised driver. -/
theorem touch_read_first_of_pair_event_witness :
    (touch_read touch_h TouchState.init (I2CReply.ok ![0, 0, 1, 0x00, 10, 0, 20])).ret ≠ 0
      ∧ (touch_read touch_h
          (touch_read touch_h TouchState.init (I2CReply.ok ![0, 0, 1, 0x00, 10, 0, 20])).state
          (I2CReply.ok ![0, 0, 1, 0x00, 10, 0, 20])).ret = 0 :=
  touch_read_first_of_pair_event touch_h TouchState.init
    (I2CReply.ok ![0, 0, 1, 0x00, 10, 0, 20]) (I2CReply.ok ![0, 0, 1, 0x00, 10, 0, 20])
    (by decide) (by decide) (by decide) rfl rfl rfl rfl rfl (by decide) (by decide)

/-- C12 as stated fails: the press-down packet at (10, 20) matches a row of
the table; from the driver state left by one successful read of it (stored
previous packet equal to it), two further consecutive calls both succeed and
both read it, and the first of the two returns 0. -/
theorem touch_read_first_of_pair_counterexample :
    table_row ![0, 0, 1, 0x00, 10, 0, 20]
      ∧ (touch_read touch_h TouchState.init
          (I2CReply.ok ![0, 0, 1, 0x00, 10, 0, 20])).state.previous_touch_data
        = ![0, 0, 1, 0x00, 10, 0, 20]
      ∧ (touch_read touch_h
          (touch_read touch_h TouchState.init (I2CReply.ok ![0, 0, 1, 0x00, 10, 0, 20])).state
          (I2CReply.ok ![0, 0, 1, 0x00, 10, 0, 20])).ret = 0 := by
  decide

/-- C13: after a `touch_read` call the stored previous packet is the packet
just read if both bus transactions succeeded, and is unchanged otherwise; the
first holds whether or not an event is decoded from the packet. -/
theorem touch_read_stored_packet (h : TouchHeader) (s : TouchState) (reply : I2CReply) :
    (reply.transmit = HAL_OK ∧ reply.receive = HAL_OK →
        (touch_read h s reply).state.previous_touch_data = reply.rx)
      ∧ (reply.transmit = HAL_OK ∧ reply.receive = HAL_OK →
          reply.rx ≠ s.previous_touch_data → (touch_read h s reply).ret = 0 →
          (touch_read h s reply).state.previous_touch_data = reply.rx
            ∧ (touch_read h s reply).state.previous_touch_data ≠ s.previous_touch_data)
      ∧ (reply.transmit ≠ HAL_OK →
          (touch_read h s reply).state.previous_touch_data = s.previous_touch_data)
      ∧ (reply.receive ≠ HAL_OK →
          (touch_read h s reply).state.previous_touch_data = s.previous_touch_data) := by
  refine ⟨?_, ?_, ?_, ?_⟩
  · intro hok
    exact touch_read_ok_previous h s reply hok.1 hok.2
  · intro hok hne _
    have hp := touch_read_ok_previous h s reply hok.1 hok.2
    exact ⟨hp, by rw [hp]; exact hne⟩
  · intro hw
    exact (touch_read_failed h s reply (fun hok => hw hok.1)).2
  · intro hr
    exact (touch_read_failed h s reply (fun hok => hr hok.2)).2

/-- Witness for C13 from a driver that has stored the press-down packet at
(10, 20): a packet with gesture code 0x10 and a packet with 2 points decode to
no event and replace it; a failed write and a failed read leave it. -/
theorem touch_read_stored_packet_witness :
    ((touch_read touch_h ⟨![0, 0, 1, 0x00, 10, 0, 20], ![0, 0, 1, 0x00, 10, 0, 20]⟩
        (I2CReply.ok ![0, 0x10, 1, 0x80, 11, 0, 21])).state.previous_touch_data
        = ![0, 0x10, 1, 0x80, 11, 0, 21]
      ∧ (touch_read touch_h ⟨![0, 0, 1, 0x00, 10, 0, 20], ![0, 0, 1, 0x00, 10, 0, 20]⟩
        (I2CReply.ok ![0, 0x10, 1, 0x80, 11, 0, 21])).state.previous_touch_data
        ≠ ![0, 0, 1, 0x00, 10, 0, 20])
      ∧ (touch_read touch_h ⟨![0, 0, 1, 0x00, 10, 0, 20], ![0, 0, 1, 0x00, 10, 0, 20]⟩
        (I2CReply.ok ![0, 0, 2, 0x80, 11, 0, 21])).state.previous_touch_data
        = ![0, 0, 2, 0x80, 11, 0, 21]
      ∧ (touch_read touch_h ⟨![0, 0, 1, 0x00, 10, 0, 20], ![0, 0, 1, 0x00, 10, 0, 20]⟩
        ⟨HAL_ERROR, HAL_OK, ![0, 0, 1, 0x80, 11, 0, 21]⟩).state.previous_touch_data
        = ![0, 0, 1, 0x00, 10, 0, 20]
      ∧ (touch_read touch_h ⟨![0, 0, 1, 0x00, 10, 0, 20], ![0, 0, 1, 0x00, 10, 0, 20]⟩
        ⟨HAL_OK, HAL_TIMEOUT, ![0, 0, 1, 0x80, 11, 0, 21]⟩).state.previous_touch_data
        = ![0, 0, 1, 0x00, 10, 0, 20] :=
  ⟨(touch_read_stored_packet touch_h ⟨![0, 0, 1, 0x00, 10, 0, 20], ![0, 0, 1, 0x00, 10, 0, 20]⟩
      (I2CReply.ok ![0, 0x10, 1, 0x80, 11, 0, 21])).2.1 ⟨rfl, rfl⟩ (by decide) (by decide),
   (touch_read_stored_packet touch_h ⟨![0, 0, 1, 0x00, 10, 0, 20], ![0, 0, 1, 0x00, 10, 0, 20]⟩
      (I2CReply.ok ![0, 0, 2, 0x80, 11, 0, 21])).1 ⟨rfl, rfl⟩,
   (touch_read_stored_packet touch_h ⟨![0, 0, 1, 0x00, 10, 0, 20], ![0, 0, 1, 0x00, 10, 0, 20]⟩
      ⟨HAL_ERROR, HAL_OK, ![0, 0, 1, 0x80, 11, 0, 21]⟩).2.2.1 (by decide),
   (touch_read_stored_packet touch_h ⟨![0, 0, 1, 0x00, 10, 0, 20], ![0, 0, 1, 0x00, 10, 0, 20]⟩
      ⟨HAL_OK, HAL_TIMEOUT, ![0, 0, 1, 0x80, 11, 0, 21]⟩).2.2.2 (by decide)⟩

/-! ## A bus on which every write fails -/

/-- With failing writes every call returns 0. -/
theorem touch_read_seq_write_fails (h : TouchHeader) (replies : List I2CReply) :
    ∀ s : TouchState, (∀ b ∈ replies, b.transmit ≠ HAL_OK) →
      ∀ r ∈ touch_read_seq h s replies, r.ret = 0 := by
  induction replies with
  | nil => intro s _ r hr; simp [touch_read_seq] at hr
  | cons b bs ih =>
    intro s hall r hr
    simp only [touch_read_seq, List.mem_cons] at hr
    have hb : b.transmit ≠ HAL_OK := hall b (List.mem_cons_self _ _)
    rcases hr with hr | hr
    · rw [hr, touch_read_transmit_failed h s b hb]
    · exact ih _ (fun c hc => hall c (List.mem_cons_of_mem _ hc)) r hr

/-- The first poll of `touch_click` with a failing write leaves the first
loop. -/
theorem touch_click_poll_entry_write_fails (h : TouchHeader) (s : TouchState)
    (reply : I2CReply) (hw : reply.transmit ≠ HAL_OK) :
    touch_click_poll h (s, ClickState.entry) reply = (s, ⟨ClickLoop.wait_start, 0, 1⟩) := by
  simp [touch_click_poll, ClickState.entry, touch_read_transmit_failed h s reply hw,
    touch_click_step]

/-- A poll of the second loop with a failing write stays in the second
loop. -/
theorem touch_click_poll_wait_start_write_fails (h : TouchHeader) (s : TouchState) (k : Nat)
    (reply : I2CReply) (hw : reply.transmit ≠ HAL_OK) :
    touch_click_poll h (s, ⟨ClickLoop.wait_start, 0, k⟩) reply
      = (s, ⟨ClickLoop.wait_start, 0, k + 1⟩) := by
  simp [touch_click_poll, touch_read_transmit_failed h s reply hw, touch_click_step]

/-- With failing writes `touch_click` stays in the second loop. -/
theorem touch_click_wait_start_write_fails (h : TouchHeader) (s : TouchState)
    (replies : List I2CReply) :
    ∀ k, (∀ b ∈ replies, b.transmit ≠ HAL_OK) →
      replies.foldl (touch_click_poll h) (s, ⟨ClickLoop.wait_start, 0, k⟩)
        = (s, ⟨ClickLoop.wait_start, 0, k + replies.length⟩) := by
  induction replies with
  | nil => intro k _; rfl
  | cons b bs ih =>
    intro k hall
    rw [List.foldl_cons, touch_click_poll_wait_start_write_fails h s k b
      (hall b (List.mem_cons_self _ _)), ih (k + 1)
      (fun c hc => hall c (List.mem_cons_of_mem _ hc)), List.length_cons]
    congr 2
    omega

/-- C14: if every bus write fails, every `touch_read` call returns 0 and
`touch_click` never returns: after n polls, for every number n of polls made,
it has left its first loop, is still in the wait-for-Start loop and has made
exactly those n polls. -/
theorem touch_click_blocks_write_fails (h : TouchHeader) (s : TouchState)
    (replies : List I2CReply) (hall : ∀ b ∈ replies, b.transmit ≠ HAL_OK) :
    (∀ r ∈ touch_read_seq h s replies, r.ret = 0)
      ∧ (1 ≤ replies.length →
          touch_click_on_bus h s replies = (s, ⟨ClickLoop.wait_start, 0, replies.length⟩))
      ∧ (touch_click_on_bus h s replies).2.loop ≠ ClickLoop.returned := by
  have hpos : 1 ≤ replies.length →
      touch_click_on_bus h s replies = (s, ⟨ClickLoop.wait_start, 0, replies.length⟩) := by
    intro hlen
    cases replies with
    | nil => simp at hlen
    | cons b bs =>
      unfold touch_click_on_bus
      rw [List.foldl_cons, touch_click_poll_entry_write_fails h s b
        (hall b (List.mem_cons_self _ _)), touch_click_wait_start_write_fails h s bs 1
        (fun c hc => hall c (List.mem_cons_of_mem _ hc)), List.length_cons]
      congr 2
      omega
  refine ⟨touch_read_seq_write_fails h replies s hall, hpos, ?_⟩
  cases replies with
  | nil =>
    show ClickLoop.flush_before ≠ ClickLoop.returned
    decide
  | cons b bs =>
    rw [hpos (by simp)]
    show ClickLoop.wait_start ≠ ClickLoop.returned
    decide

/-- Witness for C14: after three polls from the zero-initialised
driver whose writes fail in three ways, `touch_click` is in the
wait-for-Start loop with 3 polls made. -/
theorem touch_click_blocks_write_fails_witness :
    touch_click_on_bus touch_h TouchState.init
        [⟨HAL_ERROR, HAL_OK, ![0, 0, 1, 0x00, 10, 0, 20]⟩,
         ⟨HAL_BUSY, HAL_OK, ![0, 0, 1, 0x80, 10, 0, 21]⟩,
         ⟨HAL_TIMEOUT, HAL_OK, ![0, 0, 0, 0x40, 10, 0, 21]⟩]
      = (TouchState.init, ⟨ClickLoop.wait_start, 0, 3⟩) :=
  (touch_click_blocks_write_fails touch_h TouchState.init
    [⟨HAL_ERROR, HAL_OK, ![0, 0, 1, 0x00, 10, 0, 20]⟩,
     ⟨HAL_BUSY, HAL_OK, ![0, 0, 1, 0x80, 10, 0, 21]⟩,
     ⟨HAL_TIMEOUT, HAL_OK, ![0, 0, 0, 0x40, 10, 0, 21]⟩]
    (by
      intro b hb
      simp only [List.mem_cons, List.mem_singleton, List.not_mem_nil, or_false] at hb
      rcases hb with hb | hb | hb <;> rw [hb] <;> decide)).2.1 (by decide)

/-! ## Bus transactions of one call -/

/-- After a successful write the call issues the write and one read. -/
theorem touch_read_bus_ok (h : TouchHeader) (s : TouchState) (reply : I2CReply)
    (hw : reply.transmit = HAL_OK) :
    (touch_read h s reply).bus
      = [I2CTransaction.Master_Transmit TOUCH_ADDRESS [0x00] 1,
         I2CTransaction.Master_Receive TOUCH_ADDRESS TOUCH_PACKET_SIZE 1] := by
  simp only [touch_read, hw, ne_eq, not_true_eq_false, if_false]
  split_ifs <;> rfl

/-- C15: each `touch_read` call performs exactly one write transaction, of
the single byte 0x00 to the controller address, followed by at most one read
transaction, which is issued exactly when the write succeeded and requests 7
bytes from the controller address; nothing else goes over the bus, so no
transaction is retried within a call. -/
theorem touch_read_transactions (h : TouchHeader) (s : TouchState) (reply : I2CReply) :
    ((touch_read h s reply).bus = [I2CTransaction.Master_Transmit (0x38 <<< 1) [0x00] 1]
        ∨ (touch_read h s reply).bus
          = [I2CTransaction.Master_Transmit (0x38 <<< 1) [0x00] 1,
             I2CTransaction.Master_Receive (0x38 <<< 1) 7 1])
      ∧ ((touch_read h s reply).bus
          = [I2CTransaction.Master_Transmit (0x38 <<< 1) [0x00] 1,
             I2CTransaction.Master_Receive (0x38 <<< 1) 7 1]
        ↔ reply.transmit = HAL_OK)
      ∧ ((touch_read h s reply).bus = [I2CTransaction.Master_Transmit (0x38 <<< 1) [0x00] 1]
        ↔ reply.transmit ≠ HAL_OK) := by
  by_cases hw : reply.transmit = HAL_OK
  · have hb := touch_read_bus_ok h s reply hw
    rw [hb]
    refine ⟨Or.inr rfl, ⟨fun _ => hw, fun _ => rfl⟩, ⟨fun hl => ?_, fun hn => absurd hw hn⟩⟩
    simp at hl
  · rw [touch_read_transmit_failed h s reply hw]
    refine ⟨Or.inl rfl, ⟨fun hl => ?_, fun ho => absurd ho hw⟩, ⟨fun _ => hw, fun _ => rfl⟩⟩
    simp at hl

/-! ## The initial state -/

/-- As long as no completed read delivers a packet matching the table, the
stored previous packet matches no row either. -/
theorem touch_read_state_no_row (h : TouchHeader) (before : List I2CReply) :
    ∀ s : TouchState, ¬ table_row s.previous_touch_data →
      (∀ b ∈ before, b.transmit = HAL_OK → b.receive = HAL_OK → ¬ table_row b.rx) →
      ¬ table_row (touch_read_state h s before).previous_touch_data := by
  induction before with
  | nil => intro s hs _; exact hs
  | cons b bs ih =>
    intro s hs hall
    have hbs : ∀ c ∈ bs, c.transmit = HAL_OK → c.receive = HAL_OK → ¬ table_row c.rx :=
      fun c hc => hall c (List.mem_cons_of_mem _ hc)
    show ¬ table_row (touch_read_state h (touch_read h s b).state bs).previous_touch_data
    apply ih _ _ hbs
    by_cases hok : b.transmit = HAL_OK ∧ b.receive = HAL_OK
    · rw [touch_read_ok_previous h s b hok.1 hok.2]
      exact hall b (List.mem_cons_self _ _) hok.1 hok.2
    · rw [(touch_read_failed h s b hok).2]
      exact hs

/-- C16: starting from the initial driver state, the first successful poll
that reads a packet matching a row of the decision table returns a non-zero
event, whatever failed polls and successful polls of non-matching packets
came before; no packet that matches the table is all-zero, and the all-zero
packet decodes to no event in every driver state. -/
theorem touch_read_initial_state_no_suppression (h : TouchHeader)
    (before : List I2CReply) (reply : I2CReply)
    (hS : h.TOUCH_START ≠ 0) (hM : h.TOUCH_MOVE ≠ 0) (hE : h.TOUCH_END ≠ 0)
    (hbefore : ∀ b ∈ before, b.transmit = HAL_OK → b.receive = HAL_OK → ¬ table_row b.rx)
    (hw : reply.transmit = HAL_OK) (hr : reply.receive = HAL_OK)
    (hrow : table_row reply.rx) :
    (touch_read h (touch_read_state h TouchState.init before) reply).ret ≠ 0
      ∧ reply.rx ≠ (fun _ => 0)
      ∧ reply.rx ≠ TouchState.init.previous_touch_data
      ∧ (∀ s : TouchState, (touch_read h s (I2CReply.ok (fun _ => 0))).ret = 0) := by
  have hz : reply.rx ≠ (fun _ => 0) := fun e => table_row_zero (e ▸ hrow)
  have hprev := touch_read_state_no_row h before TouchState.init table_row_zero hbefore
  have hfresh : (touch_read_state h TouchState.init before).previous_touch_data ≠ reply.rx :=
    fun e => hprev (e ▸ hrow)
  refine ⟨touch_read_row_ne_zero h _ reply hS hM hE hw hr hfresh hrow, hz, hz, ?_⟩
  intro s
  by_cases hd : s.previous_touch_data = (I2CReply.ok (fun _ => 0)).rx
  · rw [touch_read_duplicate h s _ rfl rfl hd]
  · simp [touch_read, I2CReply.ok, hd, GESTURE_NO_GESTURE, EVENT_PRESS_DOWN, EVENT_CONTACT,
      EVENT_LIFT_UP]
    split_ifs <;> rfl

/-- Witness for C16: from the zero-initialised driver a poll with a failed
write, a poll reading a gesture packet and a poll reading the all-zero packet
come first; the press-down packet at (10, 20) read next gives an event. -/
theorem touch_read_initial_state_no_suppression_witness :
    (touch_read touch_h
        (touch_read_state touch_h TouchState.init
          [⟨HAL_ERROR, HAL_OK, ![0, 0, 1, 0x00, 10, 0, 20]⟩,
           I2CReply.ok ![0, 0x10, 1, 0x00, 10, 0, 20],
           I2CReply.ok ![0, 0, 0, 0, 0, 0, 0]])
        (I2CReply.ok ![0, 0, 1, 0x00, 10, 0, 20])).ret ≠ 0 :=
  (touch_read_initial_state_no_suppression touch_h
    [⟨HAL_ERROR, HAL_OK, ![0, 0, 1, 0x00, 10, 0, 20]⟩,
     I2CReply.ok ![0, 0x10, 1, 0x00, 10, 0, 20],
     I2CReply.ok ![0, 0, 0, 0, 0, 0, 0]]
    (I2CReply.ok ![0, 0, 1, 0x00, 10, 0, 20])
    (by decide) (by decide) (by decide)
    (by
      intro b hb hw _
      simp only [List.mem_cons, List.mem_singleton, List.not_mem_nil, or_false] at hb
      rcases hb with hb | hb | hb
      · rw [hb] at hw; exact absurd hw (by decide)
      · rw [hb]; decide
      · rw [hb]; decide)
    rfl rfl (by decide)).1

/-! ## What the decoder reads and what the comparison reads -/

/-- Bits 7-6 of a byte are among its bits 7-6 and 3-0. -/
theorem and_C0_of_CF (z : Nat) : z &&& 0xC0 = (z &&& 0xCF) &&& 0xC0 := by
  rw [Nat.and_assoc]
  rfl

/-- Bits 3-0 of a byte are among its bits 7-6 and 3-0. -/
theorem and_0F_of_CF (z : Nat) : z &&& 0x0F = (z &&& 0xCF) &&& 0x0F := by
  rw [Nat.and_assoc]
  rfl

/-- C17: the result of `touch_read` on a non-duplicate packet depends only on
byte[1], the low nibble of byte[2], bits 7-6 and 3-0 of byte[3], byte[4], the
low nibble of byte[5] and byte[6]: two successfully read packets that agree
on these and both differ from the stored previous packet give the same
value. -/
theorem touch_read_depends_on_fields (h : TouchHeader) (s : TouchState) (a b : I2CReply)
    (hwa : a.transmit = HAL_OK) (hra : a.receive = HAL_OK)
    (hwb : b.transmit = HAL_OK) (hrb : b.receive = HAL_OK)
    (hna : a.rx ≠ s.previous_touch_data) (hnb : b.rx ≠ s.previous_touch_data)
    (h1 : a.rx 1 = b.rx 1)
    (h2 : (a.rx 2).val &&& 0x0F = (b.rx 2).val &&& 0x0F)
    (h3 : (a.rx 3).val &&& 0xCF = (b.rx 3).val &&& 0xCF)
    (h4 : a.rx 4 = b.rx 4)
    (h5 : (a.rx 5).val &&& 0x0F = (b.rx 5).val &&& 0x0F)
    (h6 : a.rx 6 = b.rx 6) :
    (touch_read h s a).ret = (touch_read h s b).ret := by
  have hna2 : ¬ s.previous_touch_data = a.rx := fun e => hna e.symm
  have hnb2 : ¬ s.previous_touch_data = b.rx := fun e => hnb e.symm
  have h3hi : (a.rx 3).val &&& 0xC0 = (b.rx 3).val &&& 0xC0 := by
    rw [and_C0_of_CF (a.rx 3).val, and_C0_of_CF (b.rx 3).val, h3]
  have h3lo : (a.rx 3).val &&& 0x0F = (b.rx 3).val &&& 0x0F := by
    rw [and_0F_of_CF (a.rx 3).val, and_0F_of_CF (b.rx 3).val, h3]
  simp only [touch_read, hwa, hra, hwb, hrb, hna2, hnb2, ne_eq, not_true_eq_false, if_false,
    X_POS_MSB, X_POS_LSB, Y_POS_MSB, Y_POS_LSB, h1, h2, h3hi, h3lo, h4, h5, h6]
  split_ifs <;> rfl

/-- Witness for C17: two contact packets at (0x10A, 0x214) that differ in
byte[0], in the high nibble of byte[2], in bits 5-4 of byte[3] and in the
high nibble of byte[5]. -/
theorem touch_read_depends_on_fields_witness :
    (touch_read touch_h TouchState.init (I2CReply.ok ![0x00, 0, 0x01, 0x81, 10, 0x02, 20])).ret
      = (touch_read touch_h TouchState.init
          (I2CReply.ok ![0xFF, 0, 0xF1, 0xB1, 10, 0xF2, 20])).ret :=
  touch_read_depends_on_fields touch_h TouchState.init
    (I2CReply.ok ![0x00, 0, 0x01, 0x81, 10, 0x02, 20])
    (I2CReply.ok ![0xFF, 0, 0xF1, 0xB1, 10, 0xF2, 20])
    rfl rfl rfl rfl (by decide) (by decide)
    (by decide) (by decide) (by decide) (by decide) (by decide) (by decide)

/-- C18: duplicate suppression compares against the most recently
successfully read packet only, and over all 7 bytes: for packets `a ≠ b`
where `a` matches the decision table, from a driver state whose stored packet
is not `a`, three consecutive successful polls reading `a`, `b`, `a` return
the same non-zero event on the first and on the third poll. -/
theorem touch_read_a_b_a (h : TouchHeader) (s : TouchState) (a b : Packet)
    (hS : h.TOUCH_START ≠ 0) (hM : h.TOUCH_MOVE ≠ 0) (hE : h.TOUCH_END ≠ 0)
    (hab : a ≠ b) (hrow : table_row a) (hs : s.previous_touch_data ≠ a) :
    (touch_read h
        (touch_read h (touch_read h s (I2CReply.ok a)).state (I2CReply.ok b)).state
        (I2CReply.ok a)).ret
        = (touch_read h s (I2CReply.ok a)).ret
      ∧ (touch_read h s (I2CReply.ok a)).ret ≠ 0 := by
  have hprev : (touch_read h (touch_read h s (I2CReply.ok a)).state
      (I2CReply.ok b)).state.previous_touch_data = b :=
    touch_read_ok_previous h _ (I2CReply.ok b) rfl rfl
  have hfresh : (touch_read h (touch_read h s (I2CReply.ok a)).state
      (I2CReply.ok b)).state.previous_touch_data ≠ (I2CReply.ok a).rx := by
    rw [hprev]
    exact fun e => hab e.symm
  exact ⟨touch_read_fresh_ret h _ s (I2CReply.ok a) rfl rfl hfresh hs,
    touch_read_row_ne_zero h s (I2CReply.ok a) hS hM hE rfl rfl hs hrow⟩

/-- Witness for C18: `b` differs from the press-down packet `a` at (10, 20)
only in byte[0], which the decoder ignores. -/
theorem touch_read_a_b_a_witness :
    (touch_read touch_h
        (touch_read touch_h
          (touch_read touch_h TouchState.init (I2CReply.ok ![0, 0, 1, 0x00, 10, 0, 20])).state
          (I2CReply.ok ![1, 0, 1, 0x00, 10, 0, 20])).state
        (I2CReply.ok ![0, 0, 1, 0x00, 10, 0, 20])).ret
        = (touch_read touch_h TouchState.init (I2CReply.ok ![0, 0, 1, 0x00, 10, 0, 20])).ret
      ∧ (touch_read touch_h TouchState.init (I2CReply.ok ![0, 0, 1, 0x00, 10, 0, 20])).ret ≠ 0 :=
  touch_read_a_b_a touch_h TouchState.init ![0, 0, 1, 0x00, 10, 0, 20]
    ![1, 0, 1, 0x00, 10, 0, 20] (by decide) (by decide) (by decide)
    (by decide) (by decide) (by decide)

end Touch
